import Mathlib

/-!
Verification development for the NordicForests masking editor.

The definitions below are a shallow embedding of the TypeScript sources:
the `ImageEditor` component (history manager, stroke lifecycle, submit
pipeline), and the `removeObject` remote client in
`services/geminiService.ts`.  Canvas pixel buffers (`ImageData`) are
modelled as abstract byte lists; React `useState` state is gathered into an
explicit record, and each event handler becomes a state-transforming
function.  A point the embedding is careful about: inside one event handler
a React state setter does not change the values the handler closed over, and
when several setters for the same state run in one handler the last queued
value wins.  `handleClear` is embedded under exactly those semantics.
-/

namespace NordicForests

/-- A canvas pixel buffer (the browser ImageData), abstracted to its bytes. -/
abbrev ImageData := List Nat

/-- The React state of the ImageEditor component that the editing logic
touches: `history`/`historyIndex` (the undo stack), the mutable drawing
canvas contents, the `isDrawing` flag, and the `error`/`isLoading` fields
set by the submit pipeline.  `historyIndex` is an `Int` because the source
initialises it to `-1` before the image loads. -/
structure EditorState where
  history : List ImageData
  historyIndex : Int
  canvas : ImageData
  isDrawing : Bool
  errorMsg : Option String
  isLoading : Bool
deriving DecidableEq, Repr

/-- The state right after `drawImage` ran on load: history holds the single
initial (empty-mask) snapshot `e` and the index is 0. -/
def loadState (e : ImageData) : EditorState :=
  { history := [e], historyIndex := 0, canvas := e,
    isDrawing := false, errorMsg := none, isLoading := false }

/-- `saveToHistory`: slice the history up to and including the current
index, append a snapshot of the current canvas, and point the index at it. -/
def saveToHistory (s : EditorState) : EditorState :=
  let newHistory := s.history.take (s.historyIndex + 1).toNat
  { s with history := newHistory ++ [s.canvas],
           historyIndex := newHistory.length }

/-- `startDrawing`: begins a path and sets the `isDrawing` flag (the mapped
coordinates and the 2d context are assumed present, as in a mounted
editor). -/
def startDrawing (s : EditorState) : EditorState :=
  { s with isDrawing := true }

/-- `draw`: while a stroke is active, extends it, mutating the canvas to
some new contents `c`; ignored when no stroke is active. -/
def draw (c : ImageData) (s : EditorState) : EditorState :=
  if s.isDrawing then { s with canvas := c } else s

/-- `stopDrawing`: a no-op when no stroke is active; otherwise closes the
path, clears the flag and snapshots the canvas into the history. -/
def stopDrawing (s : EditorState) : EditorState :=
  if s.isDrawing then saveToHistory { s with isDrawing := false } else s

/-- `handleUndo`: when the index is positive and the previous snapshot
exists, restore it to the canvas and decrement the index. -/
def handleUndo (s : EditorState) : EditorState :=
  if 0 < s.historyIndex then
    match s.history[(s.historyIndex - 1).toNat]? with
    | some snap => { s with canvas := snap, historyIndex := s.historyIndex - 1 }
    | none => s
  else s

/-- `handleRedo`: when the index is below the last position and the next
snapshot exists, restore it to the canvas and increment the index. -/
def handleRedo (s : EditorState) : EditorState :=
  if s.historyIndex < (s.history.length : Int) - 1 then
    match s.history[(s.historyIndex + 1).toNat]? with
    | some snap => { s with canvas := snap, historyIndex := s.historyIndex + 1 }
    | none => s
  else s

/-- `handleClear`: the source restores the canvas from `history[0]`, queues
`setHistory([history[0]])` and `setHistoryIndex(0)`, then calls
`saveToHistory()`.  That inner call reads the `history` and `historyIndex`
the handler closed over — the pre-clear values — and its own queued setters
run last, overriding the reset.  The net effect under React semantics is
therefore `saveToHistory` on the pre-clear stack with the canvas restored
to the baseline snapshot. -/
def handleClear (s : EditorState) : EditorState :=
  match s.history.head? with
  | some h0 => saveToHistory { s with canvas := h0 }
  | none => s

/-- The editor states reachable after `load` by user interactions with the
mask editor: stroke events, undo, redo, clear, and the raw snapshot
operation. -/
inductive Reachable (e : ImageData) : EditorState → Prop
  | load : Reachable e (loadState e)
  | start {s} : Reachable e s → Reachable e (startDrawing s)
  | move {s} (c : ImageData) : Reachable e s → Reachable e (draw c s)
  | stop {s} : Reachable e s → Reachable e (stopDrawing s)
  | save {s} : Reachable e s → Reachable e (saveToHistory s)
  | undo {s} : Reachable e s → Reachable e (handleUndo s)
  | redo {s} : Reachable e s → Reachable e (handleRedo s)
  | clear {s} : Reachable e s → Reachable e (handleClear s)

/-- The history invariant of the spec: the index stays inside the stack. -/
def HistoryInv (s : EditorState) : Prop :=
  0 ≤ s.historyIndex ∧ s.historyIndex < s.history.length

instance (s : EditorState) : Decidable (HistoryInv s) := by
  unfold HistoryInv; infer_instance

/-- The bounding box returned by `getBoundingClientRect`, in CSS pixels.
Client coordinates and box dimensions are modelled as rationals. -/
structure Rect where
  left : ℚ
  top : ℚ
  width : ℚ
  height : ℚ

/-- `getCoordinates`: maps a viewport-pixel event position to canvas pixel
space, scaling by the ratio between the intrinsic canvas size and the
rendered box size.  The source first extracts `clientX`/`clientY` (from the
first touch point for touch events) and returns null for an unmounted
canvas; here the canvas is mounted and the extracted client position is the
argument. -/
def getCoordinates (canvasWidth canvasHeight : ℚ) (rect : Rect)
    (clientX clientY : ℚ) : ℚ × ℚ :=
  let scaleX := canvasWidth / rect.width
  let scaleY := canvasHeight / rect.height
  ((clientX - rect.left) * scaleX, (clientY - rect.top) * scaleY)

/-- JavaScript `Math.round (num / den)` on nonnegative arguments:
`floor (num / den + 1 / 2)`, computed exactly on integers. -/
def jsRound (num den : Nat) : Nat :=
  (2 * num + den) / (2 * den)

/-- The downscale computation of `handleProcessImage`: starting from the
source image natural width and height, when either side exceeds
`MAX_DIMENSION = 1024` the longer side is set to 1024 and the other side to
`Math.round` of the aspect-preserving value. -/
def computeTargetDims (w h : Nat) : Nat × Nat :=
  if 1024 < w ∨ 1024 < h then
    if h < w then (1024, jsRound (1024 * h) w)
    else (jsRound (1024 * w) h, 1024)
  else (w, h)

deriving instance DecidableEq for Except

/-- The environment a run of the submit pipeline interacts with: the
outcome of decoding the source image (its natural dimensions, or failure),
whether the offscreen composite canvas yields a 2d context, and the outcome
of the `removeObject` remote call (a result data URL or an error
message). -/
structure SubmitEnv where
  loadedDims : Option (Nat × Nat)
  ctxOk : Bool
  remote : Except String String
deriving DecidableEq, Repr

/-- What a run of `handleProcessImage` surfaces: the guard alert, the
`onComplete` callback with the result, or a caught error shown to the
user. -/
inductive SubmitOutcome where
  | validationAlert (msg : String)
  | completed (resultB64 : String)
  | failed (msg : String)
deriving DecidableEq, Repr

/-- A run of the submit pipeline: what it surfaced, the editor state it
left behind, whether the remote client was invoked, and the composite
target dimensions it computed (none when decoding failed first). -/
structure SubmitTrace where
  outcome : SubmitOutcome
  state : EditorState
  remoteCalled : Bool
  targetDims : Option (Nat × Nat)
deriving DecidableEq, Repr

/-- The guard alert text of `handleProcessImage`. -/
def validationMsg : String := "Please select an area to remove first."

/-- The rejection message of the `loadImage` helper. -/
def loadFailMsg : String := "Failed to load image for processing."

/-- The error thrown when the composite canvas has no 2d context. -/
def noCtxMsg : String := "Could not get composite canvas context"

/-- `handleProcessImage`: refuse with an alert when the history index is 0;
otherwise set the loading flag, decode the source image, compute the target
dimensions, composite image and mask, call the remote client, and surface
its result.  Every thrown failure is caught, its message stored in the
error state, and the loading flag cleared in the `finally` block.  The
handler never writes `history`, `historyIndex` or the drawing canvas.  (The
auth-substring check inside the catch only fires a parent callback and
touches none of the modelled state.) -/
def handleProcessImage (env : SubmitEnv) (s : EditorState) : SubmitTrace :=
  if s.historyIndex = 0 then
    { outcome := .validationAlert validationMsg, state := s,
      remoteCalled := false, targetDims := none }
  else
    let s1 := { s with isLoading := true, errorMsg := none }
    match env.loadedDims with
    | none =>
      { outcome := .failed loadFailMsg,
        state := { s1 with errorMsg := some loadFailMsg, isLoading := false },
        remoteCalled := false, targetDims := none }
    | some (w, h) =>
      let dims := computeTargetDims w h
      if env.ctxOk then
        match env.remote with
        | .ok res =>
          { outcome := .completed res,
            state := { s1 with isLoading := false },
            remoteCalled := true, targetDims := some dims }
        | .error m =>
          { outcome := .failed m,
            state := { s1 with errorMsg := some m, isLoading := false },
            remoteCalled := true, targetDims := some dims }
      else
        { outcome := .failed noCtxMsg,
          state := { s1 with errorMsg := some noCtxMsg, isLoading := false },
          remoteCalled := false, targetDims := some dims }

/-- An inline image payload inside a response part. -/
structure InlineData where
  data : String
  mimeType : String
deriving DecidableEq, Repr

/-- One part of a generated candidate content; only the presence and
contents of `inlineData` matter to the client. -/
structure ResponsePart where
  inlineData : Option InlineData
deriving DecidableEq, Repr

/-- The content of a response candidate. -/
structure Content where
  parts : List ResponsePart
deriving DecidableEq, Repr

/-- One response candidate. -/
structure Candidate where
  content : Option Content
deriving DecidableEq, Repr

/-- A response of the generative service, as far as the client reads it. -/
structure GenResponse where
  candidates : Option (List Candidate)
deriving DecidableEq, Repr

/-- The optional-chaining read `response.candidates?.[0]?.content?.parts?.[0]`. -/
def firstPart (r : GenResponse) : Option ResponsePart :=
  ((r.candidates.bind List.head?).bind Candidate.content).bind
    (fun c => c.parts.head?)

/-- The message thrown when the response carries no image part. -/
def noImageMsg : String :=
  "The API did not return an image. It might be due to a safety policy violation or an unexpected response format."

/-- The wrapper the catch block of `removeObject` applies to every failure
message before rethrowing. -/
def wrapFailure (m : String) : String :=
  "Failed to process the image: " ++ m

/-- `removeObject` of `services/geminiService.ts`, from the point where the
generate call either threw (`.error`) or returned a response (`.ok`): a
response whose first part has inline data becomes a data URL; otherwise the
no-image error is thrown; the catch block wraps every failure message. -/
def removeObject (callResult : Except String GenResponse) : Except String String :=
  match callResult with
  | .error m => .error (wrapFailure m)
  | .ok response =>
    match firstPart response with
    | some p =>
      match p.inlineData with
      | some d => .ok ("data:" ++ d.mimeType ++ ";base64," ++ d.data)
      | none => .error (wrapFailure noImageMsg)
    | none => .error (wrapFailure noImageMsg)

/-- The state after loading the empty mask `[0]` and completing a single
stroke that leaves the canvas at `[1]`. -/
def oneStrokeState : EditorState :=
  stopDrawing (draw [1] (startDrawing (loadState [0])))

/-- The state after loading `[0]`, completing five strokes, and undoing
twice: six snapshots, index 3. -/
def undoTwiceState : EditorState :=
  { history := [[0], [1], [2], [3], [4], [5]], historyIndex := 3,
    canvas := [3], isDrawing := false, errorMsg := none, isLoading := false }

/-- A quiescent state with three snapshots, index 1, canvas showing
snapshot 1. -/
def undoRoundtripState : EditorState :=
  { history := [[0], [1], [2]], historyIndex := 1, canvas := [1],
    isDrawing := false, errorMsg := none, isLoading := false }

theorem saveToHistory_def (s : EditorState) (h0 : 0 ≤ s.historyIndex) :
    saveToHistory s =
      { s with
        history := s.history.take (s.historyIndex.toNat + 1) ++ [s.canvas],
        historyIndex :=
          ((s.history.take (s.historyIndex.toNat + 1)).length : Int) } := by
  have ht : (s.historyIndex + 1).toNat = s.historyIndex.toNat + 1 := by omega
  simp [saveToHistory, ht]

theorem saveToHistory_inv (s : EditorState) (h : HistoryInv s) :
    HistoryInv (saveToHistory s) := by
  obtain ⟨h0, h1⟩ := h
  rw [HistoryInv, saveToHistory_def s h0]
  simp [List.length_take]
  omega

theorem saveToHistory_head (s : EditorState) (h : HistoryInv s) :
    (saveToHistory s).history.head? = s.history.head? := by
  obtain ⟨h0, h1⟩ := h
  rw [saveToHistory_def s h0]
  rcases hh : s.history with _ | ⟨a, t⟩
  · rw [hh] at h1; simp at h1; omega
  · simp

theorem getElem?_some_lt {α : Type} {l : List α} {i : Nat} {a : α}
    (h : l[i]? = some a) : i < l.length := by
  by_contra hc
  rw [List.getElem?_eq_none (by omega)] at h
  exact Option.noConfusion h

theorem reachable_inv (e : ImageData) (s : EditorState) (h : Reachable e s) :
    HistoryInv s ∧ s.history.head? = some e := by
  induction h with
  | load => exact ⟨⟨le_refl 0, by simp [loadState]⟩, by simp [loadState]⟩
  | @start s h ih => exact ih
  | @move s c h ih =>
    unfold draw
    split
    · exact ⟨ih.1, ih.2⟩
    · exact ih
  | @stop s h ih =>
    unfold stopDrawing
    split
    · exact ⟨saveToHistory_inv { s with isDrawing := false } ih.1,
        (saveToHistory_head { s with isDrawing := false } ih.1).trans ih.2⟩
    · exact ih
  | @save s h ih =>
    exact ⟨saveToHistory_inv s ih.1, (saveToHistory_head s ih.1).trans ih.2⟩
  | @undo s h ih =>
    obtain ⟨⟨h0, h1⟩, hh⟩ := ih
    unfold handleUndo
    split
    · split
      · refine ⟨⟨?_, ?_⟩, hh⟩
        · show (0 : Int) ≤ s.historyIndex - 1
          omega
        · show s.historyIndex - 1 < (s.history.length : Int)
          omega
      · exact ⟨⟨h0, h1⟩, hh⟩
    · exact ⟨⟨h0, h1⟩, hh⟩
  | @redo s h ih =>
    obtain ⟨⟨h0, h1⟩, hh⟩ := ih
    unfold handleRedo
    split
    · split
      · rename_i hget
        have hlen := getElem?_some_lt hget
        refine ⟨⟨?_, ?_⟩, hh⟩
        · show (0 : Int) ≤ s.historyIndex + 1
          omega
        · show s.historyIndex + 1 < (s.history.length : Int)
          omega
      · exact ⟨⟨h0, h1⟩, hh⟩
    · exact ⟨⟨h0, h1⟩, hh⟩
  | @clear s h ih =>
    obtain ⟨hi, hh⟩ := ih
    unfold handleClear
    split
    · rename_i h0 hhead
      exact ⟨saveToHistory_inv { s with canvas := h0 } hi,
        (saveToHistory_head { s with canvas := h0 } hi).trans hh⟩
    · exact ⟨hi, hh⟩

/-- C1: the spec states that clear() after any sequence of completed
strokes leaves exactly 2 history entries (baseline + post-clear snapshot)
with index 1.  The code contradicts this: the `saveToHistory()` call inside
`handleClear` closes over the pre-clear `history`/`historyIndex`, and its
queued state updates override the reset, so after one stroke the history
has 3 entries and index 2.  This theorem evaluates the embedded handler at
that failing input. -/
theorem clear_after_one_stroke_eval :
    (handleClear oneStrokeState).history = [[0], [1], [0]]
    ∧ (handleClear oneStrokeState).history.length = 3
    ∧ (handleClear oneStrokeState).historyIndex = 2 := by
  refine ⟨rfl, rfl, rfl⟩

/-- C3: a snapshot taken at index `i` of a valid history truncates the
entries beyond `i`, appends the new snapshot of the canvas, and moves the
index to `i + 1`, so the new length is `i + 2`. -/
theorem snapshot_truncates (s : EditorState)
    (h0 : 0 ≤ s.historyIndex) (h1 : s.historyIndex < (s.history.length : Int)) :
    (saveToHistory s).history
        = s.history.take (s.historyIndex.toNat + 1) ++ [s.canvas]
    ∧ (saveToHistory s).historyIndex = s.historyIndex + 1
    ∧ ((saveToHistory s).history.length : Int) = s.historyIndex + 2 := by
  rw [saveToHistory_def s h0]
  refine ⟨rfl, ?_, ?_⟩ <;> simp [List.length_take] <;> omega

/-- Witness for C3, at the state reached by five strokes and two undos
(history length 6, index 3): the new stroke leaves length 5 = 3 + 2,
not 6. -/
theorem snapshot_truncates_witness :
    0 ≤ undoTwiceState.historyIndex
    ∧ undoTwiceState.historyIndex < (undoTwiceState.history.length : Int)
    ∧ ((saveToHistory undoTwiceState).history
        = undoTwiceState.history.take (undoTwiceState.historyIndex.toNat + 1)
            ++ [undoTwiceState.canvas]
      ∧ (saveToHistory undoTwiceState).historyIndex
          = undoTwiceState.historyIndex + 1
      ∧ ((saveToHistory undoTwiceState).history.length : Int)
          = undoTwiceState.historyIndex + 2) :=
  ⟨by decide, by decide,
    snapshot_truncates undoTwiceState (by decide) (by decide)⟩

/-- C5: at an index strictly between 0 and length - 1, with the canvas
showing the snapshot at the current index (as it does in every quiescent
editor state), undo followed by redo restores the whole editor state —
in particular the visible mask pixels and the current index. -/
theorem undo_redo_roundtrip (s : EditorState)
    (h0 : 0 < s.historyIndex)
    (h1 : s.historyIndex < (s.history.length : Int) - 1)
    (hc : s.history[s.historyIndex.toNat]? = some s.canvas) :
    handleRedo (handleUndo s) = s := by
  obtain ⟨snap, hsnap⟩ : ∃ a, s.history[(s.historyIndex - 1).toNat]? = some a := by
    have hlt : (s.historyIndex - 1).toNat < s.history.length := by omega
    exact ⟨_, List.getElem?_eq_getElem hlt⟩
  have hu : handleUndo s
      = { s with canvas := snap, historyIndex := s.historyIndex - 1 } := by
    unfold handleUndo
    rw [if_pos h0, hsnap]
  rw [hu]
  unfold handleRedo
  rw [if_pos (by simp; omega)]
  have hidx : s.historyIndex - 1 + 1 = s.historyIndex := by omega
  simp only [hidx]
  rw [hc]

/-- Witness for C5: a three-snapshot history at index 1 with the canvas
showing snapshot 1. -/
theorem undo_redo_roundtrip_witness :
    0 < undoRoundtripState.historyIndex
    ∧ undoRoundtripState.historyIndex
        < (undoRoundtripState.history.length : Int) - 1
    ∧ undoRoundtripState.history[undoRoundtripState.historyIndex.toNat]?
        = some undoRoundtripState.canvas
    ∧ handleRedo (handleUndo undoRoundtripState) = undoRoundtripState :=
  ⟨by decide, by decide, by decide,
    undo_redo_roundtrip undoRoundtripState (by decide) (by decide) (by decide)⟩

/-- C9: a stroke-end event in a state with no active stroke leaves the
whole editor state unchanged (no path change, no history entry); a
completed stroke — begun with start, optionally mutating the canvas to `c`,
then ended — appends exactly one snapshot to the truncated history, so the
history length becomes index + 2; a zero-length tap (start immediately
followed by end) does the same, snapshotting the unchanged canvas. -/
theorem stroke_end_semantics (s : EditorState) (c : ImageData)
    (hq : s.isDrawing = false)
    (h0 : 0 ≤ s.historyIndex) (h1 : s.historyIndex < (s.history.length : Int)) :
    stopDrawing s = s
    ∧ (stopDrawing (draw c (startDrawing s))).history
        = s.history.take (s.historyIndex.toNat + 1) ++ [c]
    ∧ (stopDrawing (draw c (startDrawing s))).history.length
        = s.historyIndex.toNat + 2
    ∧ (stopDrawing (startDrawing s)).history
        = s.history.take (s.historyIndex.toNat + 1) ++ [s.canvas]
    ∧ (stopDrawing (startDrawing s)).history.length
        = s.historyIndex.toNat + 2 := by
  have hstroke : stopDrawing (draw c (startDrawing s))
      = saveToHistory { s with isDrawing := false, canvas := c } := by
    simp [startDrawing, draw, stopDrawing]
  have htap : stopDrawing (startDrawing s)
      = saveToHistory { s with isDrawing := false } := by
    simp [startDrawing, stopDrawing]
  refine ⟨by simp [stopDrawing, hq], ?_, ?_, ?_, ?_⟩
  · rw [hstroke, saveToHistory_def _ (by exact h0)]
  · rw [hstroke, saveToHistory_def _ (by exact h0)]
    simp [List.length_take]
    omega
  · rw [htap, saveToHistory_def _ (by exact h0)]
  · rw [htap, saveToHistory_def _ (by exact h0)]
    simp [List.length_take]
    omega

/-- Witness for C9, at the freshly loaded editor. -/
theorem stroke_end_semantics_witness :
    (loadState [0]).isDrawing = false
    ∧ 0 ≤ (loadState [0]).historyIndex
    ∧ (loadState [0]).historyIndex < ((loadState [0]).history.length : Int)
    ∧ (stopDrawing (loadState [0]) = loadState [0]
      ∧ (stopDrawing (draw [1] (startDrawing (loadState [0])))).history
          = (loadState [0]).history.take
              ((loadState [0]).historyIndex.toNat + 1) ++ [[1]]
      ∧ (stopDrawing (draw [1] (startDrawing (loadState [0])))).history.length
          = (loadState [0]).historyIndex.toNat + 2
      ∧ (stopDrawing (startDrawing (loadState [0]))).history
          = (loadState [0]).history.take
              ((loadState [0]).historyIndex.toNat + 1) ++ [(loadState [0]).canvas]
      ∧ (stopDrawing (startDrawing (loadState [0]))).history.length
          = (loadState [0]).historyIndex.toNat + 2) :=
  ⟨by decide, by decide, by decide,
    stroke_end_semantics (loadState [0]) [1] (by decide) (by decide) (by decide)⟩

/-- C10: in every state reachable after load, the history invariant
`0 ≤ index < length` holds and the snapshot at index 0 is still the
empty-mask baseline captured at load; moreover each of the four history
operations — snapshot, undo, redo and clear — preserves both, so the
baseline survives any number of clear() calls. -/
theorem history_invariant_baseline (e : ImageData) (s : EditorState)
    (h : Reachable e s) :
    (HistoryInv s ∧ s.history.head? = some e)
    ∧ (HistoryInv (saveToHistory s)
        ∧ (saveToHistory s).history.head? = some e)
    ∧ (HistoryInv (handleUndo s) ∧ (handleUndo s).history.head? = some e)
    ∧ (HistoryInv (handleRedo s) ∧ (handleRedo s).history.head? = some e)
    ∧ (HistoryInv (handleClear s) ∧ (handleClear s).history.head? = some e) :=
  ⟨reachable_inv e s h,
    reachable_inv e _ (Reachable.save h),
    reachable_inv e _ (Reachable.undo h),
    reachable_inv e _ (Reachable.redo h),
    reachable_inv e _ (Reachable.clear h)⟩

/-- Witness for C10, at the loaded editor state. -/
theorem history_invariant_baseline_witness :
    Reachable [0] (loadState [0])
    ∧ ((HistoryInv (loadState [0])
        ∧ (loadState [0]).history.head? = some [0])
      ∧ (HistoryInv (saveToHistory (loadState [0]))
          ∧ (saveToHistory (loadState [0])).history.head? = some [0])
      ∧ (HistoryInv (handleUndo (loadState [0]))
          ∧ (handleUndo (loadState [0])).history.head? = some [0])
      ∧ (HistoryInv (handleRedo (loadState [0]))
          ∧ (handleRedo (loadState [0])).history.head? = some [0])
      ∧ (HistoryInv (handleClear (loadState [0]))
          ∧ (handleClear (loadState [0])).history.head? = some [0])) :=
  ⟨Reachable.load,
    history_invariant_baseline [0] (loadState [0]) Reachable.load⟩

/-- A submit environment in which the image decodes at 4000 by 2000, the
composite context is available, and the remote call fails. -/
def failingRemoteEnv : SubmitEnv :=
  { loadedDims := some (4000, 2000), ctxOk := true,
    remote := Except.error "boom" }

/-- C2: when the current history index is 0, submit refuses: it surfaces
the validation alert, leaves the editor state untouched, and never invokes
the remote client — whatever the environment would have answered. -/
theorem submit_guard_at_index_zero (env : SubmitEnv) (s : EditorState)
    (h : s.historyIndex = 0) :
    handleProcessImage env s =
      { outcome := .validationAlert validationMsg, state := s,
        remoteCalled := false, targetDims := none } := by
  simp [handleProcessImage, h]

/-- Witness for C2, at the freshly loaded editor with a failing remote. -/
theorem submit_guard_at_index_zero_witness :
    (loadState [0]).historyIndex = 0
    ∧ handleProcessImage failingRemoteEnv (loadState [0]) =
        { outcome := .validationAlert validationMsg, state := loadState [0],
          remoteCalled := false, targetDims := none } :=
  ⟨rfl, submit_guard_at_index_zero failingRemoteEnv (loadState [0]) rfl⟩

/-- C7: whenever a run of the submit pipeline surfaces a failure — from
image decoding, compositing, or the remote call — the failure is caught at
the submission boundary: the message is stored for the user, and the
history, the current index and the mask canvas are exactly what they were
before the call. -/
theorem submit_failure_frame (env : SubmitEnv) (s : EditorState) (msg : String)
    (hfail : (handleProcessImage env s).outcome = .failed msg) :
    (handleProcessImage env s).state.history = s.history
    ∧ (handleProcessImage env s).state.historyIndex = s.historyIndex
    ∧ (handleProcessImage env s).state.canvas = s.canvas
    ∧ (handleProcessImage env s).state.errorMsg = some msg := by
  by_cases hz : s.historyIndex = 0
  · simp [handleProcessImage, hz] at hfail
  · cases hld : env.loadedDims with
    | none =>
      simp [handleProcessImage, hz, hld] at hfail ⊢
      simp [hfail]
    | some wh =>
      obtain ⟨w, h⟩ := wh
      by_cases hctx : env.ctxOk
      · cases hrem : env.remote with
        | ok res => simp [handleProcessImage, hz, hld, hctx, hrem] at hfail
        | error m =>
          simp [handleProcessImage, hz, hld, hctx, hrem] at hfail ⊢
          simp [hfail]
      · simp [handleProcessImage, hz, hld, hctx] at hfail ⊢
        simp [hfail]

/-- Witness for C7: after one stroke, with a remote that fails with
message boom, the pipeline reports the failure and preserves the mask and
history. -/
theorem submit_failure_frame_witness :
    (handleProcessImage failingRemoteEnv oneStrokeState).outcome
        = .failed "boom"
    ∧ ((handleProcessImage failingRemoteEnv oneStrokeState).state.history
          = oneStrokeState.history
      ∧ (handleProcessImage failingRemoteEnv oneStrokeState).state.historyIndex
          = oneStrokeState.historyIndex
      ∧ (handleProcessImage failingRemoteEnv oneStrokeState).state.canvas
          = oneStrokeState.canvas
      ∧ (handleProcessImage failingRemoteEnv oneStrokeState).state.errorMsg
          = some "boom") :=
  ⟨by decide, submit_failure_frame failingRemoteEnv oneStrokeState "boom" (by decide)⟩

/-- C6: the coordinate mapper computes exactly
`(client - rect.left) * (canvas.width / rect.width)` per axis, and the
mapping is scale-invariant: scaling both the rendered box and the intrinsic
canvas dimensions by the same nonzero factor yields the same mapped point
for the same viewport position. -/
theorem getCoordinates_formula_scale_invariant
    (cw ch l t bw bh cx cy k : ℚ)
    (hbw : bw ≠ 0) (hbh : bh ≠ 0) (hk : k ≠ 0) :
    getCoordinates cw ch ⟨l, t, bw, bh⟩ cx cy
        = ((cx - l) * (cw / bw), (cy - t) * (ch / bh))
    ∧ getCoordinates (k * cw) (k * ch) ⟨l, t, k * bw, k * bh⟩ cx cy
        = getCoordinates cw ch ⟨l, t, bw, bh⟩ cx cy := by
  refine ⟨rfl, ?_⟩
  unfold getCoordinates
  rw [mul_div_mul_left cw bw hk, mul_div_mul_left ch bh hk]

/-- Witness for C6, with a 100 by 50 canvas rendered at 200 by 100 and
scale factor 2. -/
theorem getCoordinates_formula_scale_invariant_witness :
    (200 : ℚ) ≠ 0 ∧ (100 : ℚ) ≠ 0 ∧ (2 : ℚ) ≠ 0
    ∧ (getCoordinates 100 50 ⟨10, 20, 200, 100⟩ 30 40
          = ((30 - 10) * (100 / 200), (40 - 20) * (50 / 100))
      ∧ getCoordinates (2 * 100) (2 * 50) ⟨10, 20, 2 * 200, 2 * 100⟩ 30 40
          = getCoordinates 100 50 ⟨10, 20, 200, 100⟩ 30 40) :=
  ⟨by norm_num, by norm_num, by norm_num,
    getCoordinates_formula_scale_invariant 100 50 10 20 200 100 30 40 2
      (by norm_num) (by norm_num) (by norm_num)⟩

/-- C8: a response whose first candidate part carries no inline image data
makes the client surface the fixed no-image failure: it is an error (not a
silent empty success), its message is the recognizable no-image text, and
it differs from the result the client produces for any other thrown
failure, so the caller can tell the refusal apart. -/
theorem removeObject_refusal_distinct (resp : GenResponse) (p : ResponsePart)
    (h1 : firstPart resp = some p) (h2 : p.inlineData = none) :
    removeObject (.ok resp) = .error (wrapFailure noImageMsg)
    ∧ (∀ res : String, removeObject (.ok resp) ≠ .ok res)
    ∧ (∀ m : String, m ≠ noImageMsg →
        removeObject (.ok resp) ≠ removeObject (.error m)) := by
  have hmain : removeObject (.ok resp) = .error (wrapFailure noImageMsg) := by
    simp [removeObject, h1, h2]
  refine ⟨hmain, ?_, ?_⟩
  · intro res
    rw [hmain]
    exact fun hcon => Except.noConfusion hcon
  · intro m hm
    rw [hmain]
    simp only [removeObject, ne_eq, Except.error.injEq]
    intro heq
    apply hm
    have hd := congrArg String.data heq
    simp only [wrapFailure, String.data_append] at hd
    exact (String.ext (List.append_cancel_left hd)).symm

/-- A response whose single candidate holds one part with no inline
data. -/
def refusalResponse : GenResponse :=
  { candidates := some [{ content := some { parts := [{ inlineData := none }] } }] }

/-- Witness for C8, at a concrete refusal response. -/
theorem removeObject_refusal_distinct_witness :
    firstPart refusalResponse = some { inlineData := none }
    ∧ ({ inlineData := none } : ResponsePart).inlineData = none
    ∧ (removeObject (.ok refusalResponse) = .error (wrapFailure noImageMsg)
      ∧ (∀ res : String, removeObject (.ok refusalResponse) ≠ .ok res)
      ∧ (∀ m : String, m ≠ noImageMsg →
          removeObject (.ok refusalResponse) ≠ removeObject (.error m))) :=
  ⟨rfl, rfl,
    removeObject_refusal_distinct refusalResponse { inlineData := none } rfl rfl⟩

/-- C4: the downscale computation leaves images whose sides are both
within 1024 untouched (never upscales), caps the longer side at exactly
1024 when either side exceeds it, never enlarges either side, and keeps
the aspect ratio up to integer rounding (the cross products of the old and
new dimensions differ by at most half the longer side); in particular a
4000 by 2000 source becomes exactly 1024 by 512 and an 800 by 600 source
stays 800 by 600. -/
theorem computeTargetDims_spec (w h : Nat) (hw : 0 < w) (hh : 0 < h) :
    (max w h ≤ 1024 → computeTargetDims w h = (w, h))
    ∧ (1024 < max w h →
        max (computeTargetDims w h).1 (computeTargetDims w h).2 = 1024)
    ∧ (computeTargetDims w h).1 ≤ w
    ∧ (computeTargetDims w h).2 ≤ h
    ∧ (2 * (((computeTargetDims w h).2 : Int) * w)
        - 2 * (((computeTargetDims w h).1 : Int) * h)).natAbs ≤ max w h
    ∧ computeTargetDims 4000 2000 = (1024, 512)
    ∧ computeTargetDims 800 600 = (800, 600) := by
  have hgen : (max w h ≤ 1024 → computeTargetDims w h = (w, h))
      ∧ (1024 < max w h →
          max (computeTargetDims w h).1 (computeTargetDims w h).2 = 1024)
      ∧ (computeTargetDims w h).1 ≤ w
      ∧ (computeTargetDims w h).2 ≤ h
      ∧ (2 * (((computeTargetDims w h).2 : Int) * w)
          - 2 * (((computeTargetDims w h).1 : Int) * h)).natAbs ≤ max w h := by
    by_cases hc : 1024 < w ∨ 1024 < h
    · by_cases hwh : h < w
      · have hw1 : 1024 < w := by omega
        have hdm := Nat.div_add_mod (2 * (1024 * h) + w) (2 * w)
        have hmod : (2 * (1024 * h) + w) % (2 * w) < 2 * w :=
          Nat.mod_lt _ (by omega)
        have hq1024 : (2 * (1024 * h) + w) / (2 * w) < 1025 :=
          (Nat.div_lt_iff_lt_mul (show 0 < 2 * w by omega)).mpr (by omega)
        have hqh : (2 * (1024 * h) + w) / (2 * w) < h + 1 :=
          (Nat.div_lt_iff_lt_mul (show 0 < 2 * w by omega)).mpr
            (by nlinarith [Nat.mul_le_mul_right h (show 2050 ≤ 2 * w by omega)])
        simp only [computeTargetDims, jsRound, if_pos hc, if_pos hwh]
        refine ⟨fun hmax => ?_, fun _ => ?_, ?_, ?_, ?_⟩
        · rw [Nat.max_le] at hmax
          omega
        · omega
        · omega
        · omega
        · set q := (2 * (1024 * h) + w) / (2 * w) with hqdef
          set r := (2 * (1024 * h) + w) % (2 * w) with hrdef
          have hcast : (2 * w * q + r : Int) = 2 * (1024 * h) + w := by
            exact_mod_cast congrArg (Nat.cast : Nat → Int) hdm
          have hxval : 2 * ((q : Int) * w) - 2 * ((1024 : Int) * h)
              = (w : Int) - r := by
            push_cast at hcast ⊢
            linarith
          push_cast
          rw [hxval]
          omega
      · have hh1 : 1024 < h := by omega
        have hdm := Nat.div_add_mod (2 * (1024 * w) + h) (2 * h)
        have hmod : (2 * (1024 * w) + h) % (2 * h) < 2 * h :=
          Nat.mod_lt _ (by omega)
        have hq1024 : (2 * (1024 * w) + h) / (2 * h) < 1025 :=
          (Nat.div_lt_iff_lt_mul (show 0 < 2 * h by omega)).mpr (by omega)
        have hqw : (2 * (1024 * w) + h) / (2 * h) < w + 1 :=
          (Nat.div_lt_iff_lt_mul (show 0 < 2 * h by omega)).mpr
            (by nlinarith [Nat.mul_le_mul_right w (show 2050 ≤ 2 * h by omega)])
        simp only [computeTargetDims, jsRound, if_pos hc, if_neg hwh]
        refine ⟨fun hmax => ?_, fun _ => ?_, ?_, ?_, ?_⟩
        · rw [Nat.max_le] at hmax
          omega
        · omega
        · omega
        · omega
        · set q := (2 * (1024 * w) + h) / (2 * h) with hqdef
          set r := (2 * (1024 * w) + h) % (2 * h) with hrdef
          have hcast : (2 * h * q + r : Int) = 2 * (1024 * w) + h := by
            exact_mod_cast congrArg (Nat.cast : Nat → Int) hdm
          have hxval : 2 * ((1024 : Int) * w) - 2 * ((q : Int) * h)
              = (r : Int) - h := by
            push_cast at hcast ⊢
            linarith
          push_cast
          rw [hxval]
          omega
    · simp only [computeTargetDims, jsRound, if_neg hc]
      refine ⟨fun _ => ?_, fun hmax => ?_, ?_, ?_, ?_⟩
      · trivial
      · omega
      · exact le_refl w
      · exact le_refl h
      · have hz : 2 * ((h : Int) * w) - 2 * ((w : Int) * h) = 0 := by ring
        rw [hz]
        simp
  exact ⟨hgen.1, hgen.2.1, hgen.2.2.1, hgen.2.2.2.1, hgen.2.2.2.2,
    by decide, by decide⟩

/-- Witness for C4, at the 4000 by 2000 source of the spec scenario. -/
theorem computeTargetDims_spec_witness :
    0 < 4000 ∧ 0 < 2000
    ∧ ((max 4000 2000 ≤ 1024 → computeTargetDims 4000 2000 = (4000, 2000))
      ∧ (1024 < max 4000 2000 →
          max (computeTargetDims 4000 2000).1 (computeTargetDims 4000 2000).2
            = 1024)
      ∧ (computeTargetDims 4000 2000).1 ≤ 4000
      ∧ (computeTargetDims 4000 2000).2 ≤ 2000
      ∧ (2 * (((computeTargetDims 4000 2000).2 : Int) * 4000)
          - 2 * (((computeTargetDims 4000 2000).1 : Int) * 2000)).natAbs
            ≤ max 4000 2000
      ∧ computeTargetDims 4000 2000 = (1024, 512)
      ∧ computeTargetDims 800 600 = (800, 600)) :=
  ⟨by decide, by decide,
    computeTargetDims_spec 4000 2000 (by decide) (by decide)⟩

end NordicForests
